import Mathlib

/-!
Shallow embedding of `decorator_utils/core.py` (package `decorator-utils`).

Python values that matter to the argument-resolution core are modelled
generically: a CallState is a positional tuple `List α` together with a
kwargs dict modelled as an association list `List (String × α)` in
insertion order (Python dicts preserve insertion order; assignment to an
existing key keeps its position, assignment to a fresh key appends).
Python exceptions are modelled with `Except PyErr`.
-/

namespace DecoratorUtils

/-- The Python exception classes raised by the code under study.
`IndexError` and `KeyError` are subclasses of `LookupError`;
`RuntimeError` is not. -/
inductive PyErr where
  | IndexError
  | KeyError
  | RuntimeError
deriving DecidableEq, Repr

/-- Whether the exception is of `LookupError` class (Python class
hierarchy: `IndexError <: LookupError`, `KeyError <: LookupError`). -/
def PyErr.isLookupError : PyErr → Bool
  | .IndexError => true
  | .KeyError => true
  | .RuntimeError => false

/-- Dict read `d[k]` / membership `k in d`, on a dict modelled as an
association list in insertion order: the value bound to `k`, if any. -/
def findKW {α : Type} (k : String) : List (String × α) → Option α
  | [] => none
  | (k', v') :: rest => if k' = k then some v' else findKW k rest

/-- Dict write `d[k] = v` on a dict modelled as an association list in
insertion order: replaces the binding of `k` keeping its position, or
appends a new binding at the end — exactly Python dict assignment. -/
def insertKW {α : Type} (k : String) (v : α) : List (String × α) → List (String × α)
  | [] => [(k, v)]
  | (k', v') :: rest => if k' = k then (k, v) :: rest else (k', v') :: insertKW k v rest

/-- Python sequence indexing `xs[i]` with an `int` index: a negative
index counts from the end (`i + len(xs)`); an index out of range raises
`IndexError`, modelled as `none`. -/
def pyIndex {α : Type} (xs : List α) (i : Int) : Option α :=
  let j : Int := if i < 0 then i + (xs.length : Int) else i
  if 0 ≤ j then xs.get? j.toNat else none

/-- The namedtuple `ArgumentInfo(argname, argnum, default)` from
`core.py`: the declared name, positional index and default value of one
parameter. `argnum` is a Python `int`, hence `Int`. -/
structure ArgumentInfo (α : Type) where
  argname : String
  argnum : Int
  default : α
deriving DecidableEq, Repr

/-- `_update_argnum(params, argnum)` from `core.py`: only `len(params)`
is used, so the model takes the length. A negative index is shifted by
the parameter count; a non-negative one is returned unchanged. -/
def _update_argnum (paramsLen : Nat) (argnum : Int) : Int :=
  if argnum < 0 then argnum + (paramsLen : Int) else argnum

/-- `get_argument_info(fn, argnum)` from `core.py`. The callable `fn` is
represented by its ordered parameter list: `(name, default)` pairs, which
is what `inspect.signature(fn).parameters` provides. The source does
`argname = list(params)[argnum]` (Python list indexing, so `IndexError`
when out of range), then normalizes `argnum` via `_update_argnum`, then
reads `params[argname].default` (dict lookup by name). -/
def get_argument_info {α : Type} (params : List (String × α)) (argnum : Int) :
    Except PyErr (ArgumentInfo α) :=
  match pyIndex params argnum with
  | none => .error .IndexError
  | some (argname, _) =>
    match findKW argname params with
    | none => .error .KeyError
    | some d => .ok ⟨argname, _update_argnum params.length argnum, d⟩

/-- The enum `Argument` from `core.py`
(`POSITIONAL = 0`, `KEYWORD = 1`, `DEFAULT = 2`). -/
inductive Argument where
  | POSITIONAL
  | KEYWORD
  | DEFAULT
deriving DecidableEq, Repr

/-- `get_argument(argument_info, args, kwargs)` from `core.py`:
first the kwargs dict is consulted by name, then the args tuple by
(already normalized) position, else the recorded default is returned.
`args[argument_info.argnum]` is Python indexing, hence `pyIndex`. -/
def get_argument {α : Type} (argument_info : ArgumentInfo α) (args : List α)
    (kwargs : List (String × α)) : Except PyErr (α × Argument) :=
  match findKW argument_info.argname kwargs with
  | some v => .ok (v, .KEYWORD)
  | none =>
    if (args.length : Int) > argument_info.argnum then
      match pyIndex args argument_info.argnum with
      | some v => .ok (v, .POSITIONAL)
      | none => .error .IndexError
    else
      .ok (argument_info.default, .DEFAULT)

/-- The `argument_type` parameter of `put_argument` is untyped in Python:
any object may be passed. `enum a` is an actual member of the `Argument`
enum; `other s` is any other Python object (identified by its repr),
which compares unequal to every enum member. -/
inductive ArgumentTag where
  | enum (a : Argument)
  | other (s : String)
deriving DecidableEq, Repr

/-- `put_argument(argument, argument_info, argument_type, args, kwargs)`
from `core.py`. For `DEFAULT`/`KEYWORD` the source executes
`kwargs[argument_info.argname] = argument` and returns the same dict;
for `POSITIONAL` it rebuilds the tuple via
`tuple(arg if idx != argument_info.argnum else argument for idx, arg in enumerate(args))`;
any other tag raises `RuntimeError`. -/
def put_argument {α : Type} (argument : α) (argument_info : ArgumentInfo α)
    (argument_type : ArgumentTag) (args : List α) (kwargs : List (String × α)) :
    Except PyErr (List α × List (String × α)) :=
  if argument_type = .enum .DEFAULT ∨ argument_type = .enum .KEYWORD then
    .ok (args, insertKW argument_info.argname argument kwargs)
  else if argument_type = .enum .POSITIONAL then
    .ok (args.enum.map (fun p => if (p.1 : Int) ≠ argument_info.argnum then p.2 else argument),
         kwargs)
  else
    .error .RuntimeError

/-- Content of the caller's kwargs dict object after `put_argument`
returns (or raises). The source statement
`kwargs[argument_info.argname] = argument` on the `DEFAULT`/`KEYWORD`
branch mutates the dict passed in by the caller, so after the call the
caller's dict holds the updated bindings; on the `POSITIONAL` branch and
on the raising branch the dict is untouched. (The args tuple is a Python
tuple and is immutable; the `POSITIONAL` branch builds a fresh tuple.) -/
def put_argument_kwargs_after {α : Type} (argument : α) (argument_info : ArgumentInfo α)
    (argument_type : ArgumentTag) (kwargs : List (String × α)) : List (String × α) :=
  if argument_type = .enum .DEFAULT ∨ argument_type = .enum .KEYWORD then
    insertKW argument_info.argname argument kwargs
  else
    kwargs

/-- A Python sequence value (e.g. `list` or `tuple`) as handled by the
integer branch of `put_output`: its runtime type (`type(output)`) as a
tag, and its elements. `type(output)(generator)` reconstructs a sequence
of the same runtime type. -/
structure PySeq (α : Type) where
  ty : String
  elems : List α
deriving DecidableEq, Repr

/-- `put_output(output, edited_output, output_index)` from `core.py`,
branch `output_index is None`: the edited value replaces the whole
output. -/
def put_output_none {β : Type} (_output : β) (edited_output : β) : β :=
  edited_output

/-- `put_output` from `core.py`, branch `isinstance(output_index, int)`:
`return type(output)(out if idx != output_index else edited_output for idx, out in enumerate(output))`
— a sequence of the same runtime type, with the entry at the selected
index replaced. -/
def put_output_int {α : Type} (output : PySeq α) (edited_output : α)
    (output_index : Int) : PySeq α :=
  ⟨output.ty,
   output.elems.enum.map fun p => if (p.1 : Int) ≠ output_index then p.2 else edited_output⟩

/-- `put_output` from `core.py`, final branch (string key):
`output[output_index] = edited_output; return output` — writes the key
on the mapping in place and returns it. -/
def put_output_str {α : Type} (output : List (String × α)) (edited_output : α)
    (output_index : String) : List (String × α) :=
  insertKW output_index edited_output output

/-- A Python callable as consumed by `decorator_factory`: its declared
parameter names (what `inspect.signature(fn).parameters` yields) and its
call behaviour on a positional argument list and a kwargs dict. -/
structure PyFunc (V : Type) where
  paramNames : List String
  call : List V → List (String × V) → V

/-- Result of one call of the inner closure `_deco_factory`: either the
transform applied directly (`deco(fn, *args, **kwargs)`), or the pending
callable `partial(deco, *args, **kwargs)` awaiting its target. -/
inductive DispatchOut (V : Type) where
  | applied (v : V)
  | pending (deco : PyFunc V) (args : List V) (kwargs : List (String × V))

/-- The closure `_deco_factory(fn, *args, **kwargs)` defined inside
`decorator_factory` in `core.py`. When `decorate(fn)` is false, the
source reads `list(inspect.signature(deco).parameters)[1]` (the name of
the transform's second parameter; `IndexError` if absent), binds `fn` to
it in `kwargs`, and returns `partial(deco, *args, **kwargs)`; otherwise
it applies `deco(fn, *args, **kwargs)`. The `wraps`/
`set_function_signature` normalization only attaches metadata
(`__name__`, `__doc__`, `__signature__`) and does not change call
behaviour, so it is not part of the value model. -/
def _deco_factory {V : Type} (deco : PyFunc V) (decorate : V → Bool) (fn : V)
    (args : List V) (kwargs : List (String × V)) : Except PyErr (DispatchOut V) :=
  if !(decorate fn) then
    match pyIndex deco.paramNames 1 with
    | none => .error .IndexError
    | some argname => .ok (.pending deco args (insertKW argname fn kwargs))
  else
    .ok (.applied (deco.call (fn :: args) kwargs))

/-- Invoking the pending callable `partial(deco, *args, **kwargs)` on a
target `t`: Python `partial` places the bound positional arguments
first, so the call is `deco(*args, t, **kwargs)`. -/
def invoke_pending {V : Type} (deco : PyFunc V) (args : List V)
    (kwargs : List (String × V)) (target : V) : V :=
  deco.call (args ++ [target]) kwargs

/-- Result of a successful call of `decorator_factory`: either the
dual-mode dispatcher (the `_deco_factory` closure over `deco` and
`decorate`), or the re-parameterized factory
`partial(decorator_factory, check_fn=decorate)`. -/
inductive FactoryResult (V : Type) where
  | dispatcher (deco : PyFunc V) (decorate : V → Bool)
  | reparam (decorate : V → Bool)

/-- The declared parameter names of `decorator_factory` itself, from its
def line `def decorator_factory(deco: Callable = None, decorate: Callable[[Any], bool] = callable)`:
these are the keys of `inspect.signature(decorator_factory).parameters`. -/
def decorator_factory_param_names : List String :=
  ["deco", "decorate"]

/-- `decorator_factory(deco, decorate)` from `core.py`. Its first
statement evaluates
`decorate != inspect.signature(decorator_factory).parameters["check_fn"].default`:
the dict of its own parameters is keyed by `decorator_factory_param_names`,
so the subscript raises `KeyError` when `"check_fn"` is not among them.
Were the lookup to succeed, the comparison of the callable `decorate`
against the retrieved default would decide between returning the
re-parameterized factory and building the `_deco_factory` closure;
object comparison of callables is not computable in the model, so its
outcome is the parameter `decorateIsDefault` (true when `decorate` is
the declared default `callable`). -/
def decorator_factory {V : Type} (deco : PyFunc V) (decorate : V → Bool)
    (decorateIsDefault : Bool) : Except PyErr (FactoryResult V) :=
  if "check_fn" ∈ decorator_factory_param_names then
    if !decorateIsDefault then
      .ok (.reparam decorate)
    else
      .ok (.dispatcher deco decorate)
  else
    .error .KeyError

/-! Helper lemmas about the dict and tuple models. -/

theorem insertKW_of_findKW_some {α : Type} {k : String} {v : α}
    {l : List (String × α)} (h : findKW k l = some v) : insertKW k v l = l := by
  induction l with
  | nil => simp [findKW] at h
  | cons p rest ih =>
    obtain ⟨k', v'⟩ := p
    by_cases hk : k' = k
    · simp [findKW, hk] at h
      simp [insertKW, hk, h]
    · simp [findKW, hk] at h
      simp [insertKW, hk, ih h]

theorem insertKW_of_findKW_none {α : Type} {k : String} (v : α)
    {l : List (String × α)} (h : findKW k l = none) : insertKW k v l = l ++ [(k, v)] := by
  induction l with
  | nil => rfl
  | cons p rest ih =>
    obtain ⟨k', v'⟩ := p
    by_cases hk : k' = k
    · simp [findKW, hk] at h
    · simp [findKW, hk] at h
      simp [insertKW, hk, ih h]

theorem findKW_append_of_none {α : Type} {k : String} {l : List (String × α)}
    (l' : List (String × α)) (h : findKW k l = none) :
    findKW k (l ++ l') = findKW k l' := by
  induction l with
  | nil => rfl
  | cons p rest ih =>
    obtain ⟨k', v'⟩ := p
    by_cases hk : k' = k
    · simp [findKW, hk] at h
    · simp [findKW, hk] at h ⊢
      exact ih h

theorem pyIndex_of_nonneg {α : Type} (xs : List α) {i : Int} (h : 0 ≤ i) :
    pyIndex xs i = xs.get? i.toNat := by
  simp only [pyIndex]
  rw [if_neg (by omega : ¬ i < 0), if_pos h]

theorem rebuild_get? {α : Type} (xs : List α) (i : Int) (w : α) (n : Nat) :
    (xs.enum.map fun p => if (p.1 : Int) ≠ i then p.2 else w).get? n
      = (xs.get? n).map fun a => if (n : Int) ≠ i then a else w := by
  rw [List.get?_map, List.get?_enum]
  cases xs.get? n <;> simp

theorem rebuild_eq_self_of_ge {α : Type} (xs : List α) (i : Int) (w : α)
    (h : (xs.length : Int) ≤ i) :
    (xs.enum.map fun p => if (p.1 : Int) ≠ i then p.2 else w) = xs := by
  apply List.ext_get?_iff.mpr
  intro n
  rw [rebuild_get?]
  cases hx : xs.get? n with
  | none => simp
  | some a =>
    obtain ⟨hn, -⟩ := List.get?_eq_some.mp hx
    have hne : (n : Int) ≠ i := by omega
    simp [hne]

theorem rebuild_eq_self_of_get? {α : Type} (xs : List α) {i : Int} {w : α}
    (h0 : 0 ≤ i) (hw : xs.get? i.toNat = some w) :
    (xs.enum.map fun p => if (p.1 : Int) ≠ i then p.2 else w) = xs := by
  apply List.ext_get?_iff.mpr
  intro n
  rw [rebuild_get?]
  cases hx : xs.get? n with
  | none => simp
  | some a =>
    by_cases hni : (n : Int) = i
    · have hn : n = i.toNat := by omega
      subst hn
      rw [hx] at hw
      simp [hni, (Option.some_inj.mp hw).symm]
    · simp [hni]

/-! Theorems settling the claims. -/

/-- C6: for every parameter count `n ≥ 1` and every position `p` with
`-n ≤ p < n`, `_update_argnum` yields `p` itself when `p ≥ 0` and
`p + n` when `p < 0`, and the result lies in `[0, n)`. -/
theorem update_argnum_normalizes (n : Nat) (p : Int) (h1 : 1 ≤ n)
    (h2 : -(n : Int) ≤ p) (h3 : p < (n : Int)) :
    _update_argnum n p = (if 0 ≤ p then p else p + (n : Int)) ∧
    0 ≤ _update_argnum n p ∧ _update_argnum n p < (n : Int) := by
  unfold _update_argnum
  by_cases hp : p < 0
  · simp only [if_pos hp, if_neg (by omega : ¬ 0 ≤ p)]
    exact ⟨trivial, by omega, by omega⟩
  · simp only [if_neg hp, if_pos (by omega : 0 ≤ p)]
    exact ⟨trivial, by omega, by omega⟩

theorem update_argnum_normalizes_witness :
    _update_argnum 2 (-1) = (if 0 ≤ (-1 : Int) then (-1 : Int) else -1 + (2 : Nat)) ∧
    0 ≤ _update_argnum 2 (-1) ∧ _update_argnum 2 (-1) < ((2 : Nat) : Int) :=
  update_argnum_normalizes 2 (-1) (by omega) (by omega) (by omega)

/-- C7: `get_argument_info` fails with a `LookupError`-class error
whenever the requested position does not exist on the callable's
declared interface, i.e. whenever `argnum ≥ n` or `argnum < -n` for a
callable with `n` declared parameters. -/
theorem get_argument_info_lookup_error {α : Type} (params : List (String × α)) (p : Int)
    (h : (params.length : Int) ≤ p ∨ p < -(params.length : Int)) :
    ∃ e, get_argument_info params p = .error e ∧ e.isLookupError = true := by
  refine ⟨.IndexError, ?_, rfl⟩
  have hnone : pyIndex params p = none := by
    simp only [pyIndex]
    rcases h with h | h
    · rw [if_neg (by omega : ¬ p < 0), if_pos (by omega : (0 : Int) ≤ p)]
      exact List.get?_eq_none.mpr (by omega)
    · rw [if_pos (by omega : p < 0), if_neg (by omega : ¬ (0 : Int) ≤ p + (params.length : Int))]
  unfold get_argument_info
  rw [hnone]

theorem get_argument_info_lookup_error_witness :
    ∃ e, get_argument_info [("a", (0 : Nat))] 2 = .error e ∧ e.isLookupError = true :=
  get_argument_info_lookup_error [("a", (0 : Nat))] 2 (Or.inl (by simp))

/-- C8: `put_argument` fails with a `RuntimeError`-class error on every
tag that is not an `Argument` member, never silently returning the
CallState; and on each of the three valid tags it raises no error. -/
theorem put_argument_invalid_tag {α : Type} (v : α) (info : ArgumentInfo α)
    (args : List α) (kwargs : List (String × α)) :
    (∀ s : String,
      put_argument v info (.other s) args kwargs = .error .RuntimeError ∧
      PyErr.RuntimeError.isLookupError = false) ∧
    (∀ a : Argument, ∃ r, put_argument v info (.enum a) args kwargs = .ok r) := by
  constructor
  · intro s
    exact ⟨rfl, rfl⟩
  · intro a
    cases a <;> exact ⟨_, rfl⟩

/-- C9: `put_output` with an integer selector on a 3-element sequence at
index 1 yields a same-typed 3-element sequence `[orig0, X, orig2]`; in
general the integer branch preserves the runtime type and the length and
replaces exactly the selected index. -/
theorem put_output_int_rebuilds {α : Type} (ty : String) (o0 o1 o2 x : α)
    (s : PySeq α) (w : α) (i : Int) (k : Nat) (hk : k < s.elems.length) :
    put_output_int ⟨ty, [o0, o1, o2]⟩ x 1 = ⟨ty, [o0, x, o2]⟩ ∧
    (put_output_int s w i).ty = s.ty ∧
    (put_output_int s w i).elems.length = s.elems.length ∧
    (put_output_int s w i).elems.get? k =
      (if (k : Int) = i then some w else s.elems.get? k) := by
  refine ⟨rfl, rfl, ?_, ?_⟩
  · simp [put_output_int, List.enum_length]
  · show (s.elems.enum.map fun p => if (p.1 : Int) ≠ i then p.2 else w).get? k = _
    rw [rebuild_get?]
    cases hx : s.elems.get? k with
    | none =>
      exact absurd (List.get?_eq_none.mp hx) (by omega)
    | some a =>
      by_cases hik : (k : Int) = i <;> simp [hik]

theorem put_output_int_rebuilds_witness :
    put_output_int ⟨"tuple", [(10 : Int), 20, 30]⟩ 99 1 = ⟨"tuple", [10, 99, 30]⟩ :=
  (put_output_int_rebuilds "tuple" 10 20 30 99 ⟨"tuple", [(10 : Int), 20, 30]⟩ 99 1 0
    (by decide)).1

/-- C10: `put_argument` with tag `POSITIONAL` and a normalized position
at or beyond the length of the positional tuple does not fail: it
returns a positional tuple structurally equal to the input and the
kwargs mapping unchanged. -/
theorem put_argument_positional_out_of_range {α : Type} (v : α) (info : ArgumentInfo α)
    (args : List α) (kwargs : List (String × α)) (h : (args.length : Int) ≤ info.argnum) :
    put_argument v info (.enum .POSITIONAL) args kwargs = .ok (args, kwargs) := by
  unfold put_argument
  rw [if_neg (by simp), if_pos rfl, rebuild_eq_self_of_ge args info.argnum v h]

theorem put_argument_positional_out_of_range_witness :
    put_argument (0 : Nat) ⟨"a", 5, 0⟩ (.enum .POSITIONAL) [1, 2] [("b", 7)] =
      .ok ([1, 2], [("b", 7)]) :=
  put_argument_positional_out_of_range 0 ⟨"a", 5, 0⟩ [1, 2] [("b", 7)] (by simp)

/-- C5: `get_argument` checks locations in order: the kwargs dict first
(KEYWORD, even when a positional value at the same slot exists), then
the positional tuple when its length exceeds the normalized position
(POSITIONAL), else the recorded default (DEFAULT); with a normalized
(non-negative) position it never fails. -/
theorem get_argument_priority {α : Type} (info : ArgumentInfo α) (args : List α)
    (kwargs : List (String × α)) (hnorm : 0 ≤ info.argnum) :
    (∀ v, findKW info.argname kwargs = some v →
      get_argument info args kwargs = .ok (v, .KEYWORD)) ∧
    (findKW info.argname kwargs = none →
      ∀ hlt : info.argnum.toNat < args.length,
        get_argument info args kwargs =
          .ok (args.get ⟨info.argnum.toNat, hlt⟩, .POSITIONAL)) ∧
    (findKW info.argname kwargs = none → ¬ (args.length : Int) > info.argnum →
      get_argument info args kwargs = .ok (info.default, .DEFAULT)) ∧
    (∃ r, get_argument info args kwargs = .ok r) := by
  refine ⟨?_, ?_, ?_, ?_⟩
  · intro v hv
    unfold get_argument
    rw [hv]
  · intro hnone hlt
    unfold get_argument
    rw [hnone, if_pos (by omega : (args.length : Int) > info.argnum),
      pyIndex_of_nonneg args hnorm, List.get?_eq_get hlt]
  · intro hnone hng
    unfold get_argument
    rw [hnone, if_neg hng]
  · cases hk : findKW info.argname kwargs with
    | some v =>
      exact ⟨(v, .KEYWORD), by unfold get_argument; rw [hk]⟩
    | none =>
      by_cases hgt : (args.length : Int) > info.argnum
      · have hlt : info.argnum.toNat < args.length := by omega
        exact ⟨_, by
          unfold get_argument
          rw [hk, if_pos hgt, pyIndex_of_nonneg args hnorm, List.get?_eq_get hlt]⟩
      · exact ⟨_, by unfold get_argument; rw [hk, if_neg hgt]⟩

theorem get_argument_priority_witness :
    get_argument ⟨"b", 1, 2⟩ [5, 7] ([] : List (String × Nat)) =
      .ok ((7 : Nat), .POSITIONAL) :=
  (get_argument_priority ⟨"b", 1, 2⟩ [5, 7] [] (by decide)).2.1 rfl (by decide)

/-- C4: locating parameter `P` in CallState `S` to obtain `(v, loc)` and
rewriting `(v, P, loc, S)` yields a CallState equal to `S` in every
slot, except that a `DEFAULT`-sourced value becomes present in the
kwargs mapping as a new entry that a subsequent lookup classifies as
`KEYWORD` with value `v`. -/
theorem get_put_argument_roundtrip {α : Type} (info : ArgumentInfo α) (args : List α)
    (kwargs : List (String × α)) (hnorm : 0 ≤ info.argnum) (v : α) (loc : Argument)
    (h : get_argument info args kwargs = .ok (v, loc)) :
    put_argument v info (.enum loc) args kwargs =
      .ok (args, if loc = .DEFAULT then kwargs ++ [(info.argname, v)] else kwargs) ∧
    (loc = .DEFAULT →
      get_argument info args (kwargs ++ [(info.argname, v)]) = .ok (v, .KEYWORD)) := by
  unfold get_argument at h
  cases hk : findKW info.argname kwargs with
  | some w =>
    rw [hk] at h
    simp only [Except.ok.injEq, Prod.mk.injEq] at h
    obtain ⟨rfl, rfl⟩ := h
    constructor
    · unfold put_argument
      rw [if_pos (Or.inr rfl), insertKW_of_findKW_some hk]
      simp
    · intro habs
      simp at habs
  | none =>
    rw [hk] at h
    by_cases hgt : (args.length : Int) > info.argnum
    · rw [if_pos hgt, pyIndex_of_nonneg args hnorm] at h
      cases hx : args.get? info.argnum.toNat with
      | none =>
        rw [hx] at h
        simp at h
      | some w =>
        rw [hx] at h
        simp only [Except.ok.injEq, Prod.mk.injEq] at h
        obtain ⟨rfl, rfl⟩ := h
        constructor
        · unfold put_argument
          rw [if_neg (by simp), if_pos rfl, rebuild_eq_self_of_get? args hnorm hx]
          simp
        · intro habs
          simp at habs
    · rw [if_neg hgt] at h
      simp only [Except.ok.injEq, Prod.mk.injEq] at h
      obtain ⟨rfl, rfl⟩ := h
      constructor
      · unfold put_argument
        rw [if_pos (Or.inl rfl), insertKW_of_findKW_none _ hk]
        simp
      · intro _
        unfold get_argument
        rw [findKW_append_of_none _ hk]
        simp [findKW]

theorem get_put_argument_roundtrip_witness :
    put_argument (2 : Nat) ⟨"b", 1, 2⟩ (.enum .DEFAULT) [] [] =
      .ok ([], if Argument.DEFAULT = Argument.DEFAULT then [] ++ [("b", 2)] else []) ∧
    (Argument.DEFAULT = Argument.DEFAULT →
      get_argument ⟨"b", 1, 2⟩ [] ([] ++ [("b", (2 : Nat))]) = .ok (2, .KEYWORD)) :=
  get_put_argument_roundtrip ⟨"b", 1, 2⟩ [] [] (by decide) 2 .DEFAULT rfl

/-- C3 counterexample: `put_argument` with tag `KEYWORD` executes
`kwargs[argument_info.argname] = argument` on the dict passed in, so
after the call the caller's kwargs dict is no longer structurally equal
to its original content — here it went from `{}` to `{"a": 1}`. -/
theorem put_argument_mutates_in_place_cex :
    put_argument_kwargs_after (1 : Nat) ⟨"a", 0, 0⟩ (.enum .KEYWORD) [] ≠ [] := by
  decide

/-- C3 amended: `put_argument` returns the updated CallState and never
mutates the positional tuple (the `POSITIONAL` branch builds a fresh
tuple and leaves the mapping untouched), but for `KEYWORD` and `DEFAULT`
tags the named-value mapping is updated in place: after the call the
caller's mapping content equals the returned mapping, namely the
original with the binding `(argname, value)` set. -/
theorem put_argument_mutation_behavior {α : Type} (v : α) (info : ArgumentInfo α)
    (a : Argument) (args : List α) (kwargs : List (String × α)) :
    (∃ args', put_argument v info (.enum a) args kwargs =
      .ok (args', put_argument_kwargs_after v info (.enum a) kwargs)) ∧
    (a = .POSITIONAL → put_argument_kwargs_after v info (.enum a) kwargs = kwargs) ∧
    ((a = .KEYWORD ∨ a = .DEFAULT) →
      put_argument_kwargs_after v info (.enum a) kwargs = insertKW info.argname v kwargs) := by
  cases a
  · refine ⟨⟨_, rfl⟩, fun _ => rfl, fun h => ?_⟩
    simp at h
  · refine ⟨⟨args, rfl⟩, fun h => ?_, fun _ => rfl⟩
    simp at h
  · refine ⟨⟨args, rfl⟩, fun h => ?_, fun _ => rfl⟩
    simp at h

theorem put_argument_mutation_behavior_witness :
    put_argument_kwargs_after (1 : Nat) ⟨"a", 0, 0⟩ (.enum .KEYWORD) [] =
      insertKW "a" 1 [] :=
  (put_argument_mutation_behavior 1 ⟨"a", 0, 0⟩ .KEYWORD [5] []).2.2 (Or.inl rfl)

/-- Every call of `decorator_factory` raises `KeyError`: its first
statement subscripts its own parameter dict (keys `deco`, `decorate`)
with the absent name `check_fn`. -/
theorem decorator_factory_always_keyerror {V : Type} (deco : PyFunc V)
    (decorate : V → Bool) (b : Bool) :
    decorator_factory deco decorate b = .error .KeyError := by
  unfold decorator_factory
  rw [if_neg (by decide)]

/-- C1: constructing the dispatcher for a transform `transform(target, k)`
with the default discriminator does not produce a dual-mode callable at
all: `decorator_factory(transform)` raises `KeyError` (a
`LookupError`-class error), because line 264 of `core.py` subscripts
`inspect.signature(decorator_factory).parameters` with `"check_fn"`
while the parameters are named `deco` and `decorate`. Evaluated at a
concrete transform with parameters `(fn, k)`. -/
theorem decorator_factory_default_raises :
    decorator_factory (V := Int) ⟨["fn", "k"], fun a _ => a.headD 0⟩
      (fun _ => true) true = .error .KeyError ∧
    PyErr.KeyError.isLookupError = true :=
  ⟨decorator_factory_always_keyerror _ _ _, rfl⟩

/-- C2: supplying a non-default discriminator to the dispatcher's own
construction call (here the one from `misc.add_docstring`, modelled as a
predicate with `decorateIsDefault = false`) does not return a
re-parameterized dispatcher: the call raises `KeyError` before the
discriminator comparison is ever completed, so no `FactoryResult`
whatsoever is produced. -/
theorem decorator_factory_nondefault_check_raises :
    decorator_factory (V := Int) ⟨["fn", "docstring"], fun a _ => a.headD 0⟩
      (fun v => decide (0 < v)) false = .error .KeyError ∧
    ∀ r : FactoryResult Int,
      decorator_factory (V := Int) ⟨["fn", "docstring"], fun a _ => a.headD 0⟩
        (fun v => decide (0 < v)) false ≠ .ok r := by
  refine ⟨decorator_factory_always_keyerror _ _ _, ?_⟩
  intro r h
  rw [decorator_factory_always_keyerror _ _ _] at h
  exact Except.noConfusion h

end DecoratorUtils
